import Mathlib

/-!
Verification development for the pulse-lens emotions-map pipeline.

The TypeScript sources are shallowly embedded:
* JavaScript `number` values that may be `NaN` / `Infinity` are modelled by
  `JsNum` (rationals extended with the three IEEE special values relevant to
  the checks the code performs);
* network calls (OpenAI, Mapbox geocoding, NewsAPI, GDELT) and `Math.random`
  are oracles passed in explicitly, and every outbound call the code would
  make is recorded in an effect log;
* `async`/`await` sequencing is direct state passing (the code awaits every
  call it issues; `Promise.all` joins results positionally).
-/

namespace PulseLens

/-- JavaScript number as far as the embedded code inspects it: a rational,
`NaN`, or a signed infinity.  The pipeline only ever branches on `isNaN`,
so this carrier is exact for the modelled checks. -/
inductive JsNum where
  | nan : JsNum
  | inf : JsNum
  | ninf : JsNum
  | fin : ℚ → JsNum
deriving DecidableEq, Repr

/-- Model of JavaScript `isNaN(x)` for an already-numeric value. -/
def jsIsNaN : JsNum → Bool
  | .nan => true
  | _ => false

/-- Model of JavaScript `Number.isFinite(x)`. -/
def jsIsFinite : JsNum → Bool
  | .fin _ => true
  | _ => false

/-- `startsWithChars needle hay`: `needle` is an initial segment of `hay`. -/
def startsWithChars : List Char → List Char → Bool
  | [], _ => true
  | _ :: _, [] => false
  | a :: as, b :: bs => a == b && startsWithChars as bs

/-- `containsChars needle hay`: `needle` occurs contiguously in `hay`. -/
def containsChars (needle : List Char) : List Char → Bool
  | [] => startsWithChars needle []
  | c :: rest => startsWithChars needle (c :: rest) || containsChars needle rest

/-- Model of JavaScript `a.includes(b)` on strings (substring test). -/
def jsIncludes (s sub : String) : Bool :=
  containsChars sub.toList s.toList

/-- Whitespace as recognised by JavaScript `trim()` / `\s` (the ASCII part,
which is all the embedded code ever feeds it). -/
def jsIsSpace (c : Char) : Bool :=
  c = ' ' || c = '\t' || c = '\n' || c = '\r' || c = '\x0b' || c = '\x0c'

/-- Model of JavaScript `s.trim()`. -/
def jsTrim (s : String) : String :=
  String.mk (((s.toList.dropWhile jsIsSpace).reverse.dropWhile jsIsSpace).reverse)

/-- Outbound calls the pipeline can make; every modelled function logs the
calls it would issue. -/
inductive Effect where
  | classifyCall (text : String) : Effect
  | geocodeCall (region : String) : Effect
  | newsCall (countryCode : String) (limit : ℕ) (regionName : Option String) : Effect
  | gdeltCall (limit : ℕ) : Effect
  | llmCall : Effect
deriving DecidableEq, Repr

-- =====================
-- EMOTION CLASSIFICATION UTILITY (src/unnamed/part_000)
-- =====================

/-- The six emotion labels of `classifyEmotion`. -/
inductive Emotion where
  | anger | sadness | fear | joy | hope | neutral
deriving DecidableEq, Repr

/-- `EmotionResult` of part_000: label plus confidence score. -/
structure EmotionResult where
  emotion : Emotion
  confidence : ℚ
deriving DecidableEq, Repr

/-- `validEmotions.includes(result.emotion)` from part_000 line 86-89:
recognise one of the six labels, anything else coerces to `neutral`. -/
def emotionOfString : String → Option Emotion
  | "anger" => some .anger
  | "sadness" => some .sadness
  | "fear" => some .fear
  | "joy" => some .joy
  | "hope" => some .hope
  | "neutral" => some .neutral
  | _ => none

/-- Environment of the classifier: the optional `OPENAI_API_KEY` and the
model oracle.  `respond t = none` stands for any failure of the call
(network error, non-2xx, missing content, JSON parse error — all caught by
the same `try`/`catch`); `respond t = some (e?, c?)` is a successfully
parsed JSON object with optional `emotion` / `confidence` fields. -/
structure ClassifyEnv where
  apiKey : Option String
  respond : String → Option (Option String × Option ℚ)

/-- Embedding of `classifyEmotion` (part_000 lines 17-106).  The input is
`Option String` so that a `null`/`undefined` argument (caught by `!text`)
is representable.  Returns the result and the list of model calls made. -/
def classifyEmotion (env : ClassifyEnv) (text : Option String) :
    EmotionResult × List Effect :=
  match text with
  | none => (⟨.neutral, 1⟩, [])
  | some s =>
    -- `if (!text || text.trim().length < 3)` : "" is falsy, and any string
    -- whose trimmed length is < 3 short-circuits.
    if s = "" ∨ (jsTrim s).length < 3 then (⟨.neutral, 1⟩, [])
    else
      match env.apiKey with
      | none => (⟨.neutral, 1/2⟩, [])
      | some _ =>
        match env.respond s with
        | none => (⟨.neutral, 1/2⟩, [.classifyCall s])
        | some (e?, c?) =>
          let emotion := match e? with
            | some es => (emotionOfString es).getD .neutral
            | none => .neutral
          -- `Math.max(0, Math.min(1, result.confidence ?? 0.5))`
          let confidence := max 0 (min 1 (c?.getD (1/2)))
          (⟨emotion, confidence⟩, [.classifyCall s])

/-- Embedding of `classifyEmotionsBatch` (part_000 lines 113-118):
`Promise.all(texts.map(text => classifyEmotion(text)))` joins the
per-text results positionally. -/
def classifyEmotionsBatch (env : ClassifyEnv) (texts : List String) :
    List EmotionResult × List Effect :=
  (texts.map fun t => (classifyEmotion env (some t)).1,
   texts.flatMap fun t => (classifyEmotion env (some t)).2)

/-- The six-key summary object initialised at part_000 lines 126-133. -/
structure EmotionsSummary where
  anger : ℕ
  sadness : ℕ
  fear : ℕ
  joy : ℕ
  hope : ℕ
  neutral : ℕ
deriving DecidableEq, Repr

/-- `generateEmotionsSummary` (part_000 lines 125-142): per-label counts. -/
def generateEmotionsSummary (emotions : List EmotionResult) : EmotionsSummary :=
  { anger := (emotions.filter fun r => r.emotion = .anger).length
    sadness := (emotions.filter fun r => r.emotion = .sadness).length
    fear := (emotions.filter fun r => r.emotion = .fear).length
    joy := (emotions.filter fun r => r.emotion = .joy).length
    hope := (emotions.filter fun r => r.emotion = .hope).length
    neutral := (emotions.filter fun r => r.emotion = .neutral).length }

-- =====================
-- FORMAT MAP DATA (src/unnamed/part_004)
-- =====================

/-- `UnifiedPost` as consumed by `formatMapData`: nullable lat/lon, the
GDELT tone is optional. -/
structure UnifiedPost where
  text : String
  createdAt : String
  source : String
  uri : String
  cid : String
  lat : Option JsNum
  lon : Option JsNum
  tone : Option JsNum
deriving DecidableEq, Repr

/-- `EmotionColorMap` of part_004 lines 57-64. -/
def EmotionColorMap : Emotion → String
  | .anger => "#FF4C4C"
  | .fear => "#8B00FF"
  | .sadness => "#4C79FF"
  | .joy => "#FFD93D"
  | .hope => "#4CFF4C"
  | .neutral => "#AAAAAA"

/-- One GeoJSON Point feature as built by `formatMapData`:
`coordinates = [lon, lat]` plus the `properties` object. -/
structure MapFeature where
  coordinates : JsNum × JsNum
  emotion : Emotion
  confidence : ℚ
  intensity : ℚ
  color : String
  text : String
  source : String
  url : Option String
  createdAt : String
  tone : Option JsNum
deriving DecidableEq, Repr

/-- Final coordinate validation of part_004 lines 130-134: drop the post if
either component is NaN. -/
def finalValidate (o : Option (JsNum × JsNum)) : Option (JsNum × JsNum) :=
  match o with
  | some c => if jsIsNaN c.1 || jsIsNaN c.2 then none else some c
  | none => none

/-- Coordinate assignment for one post (part_004 lines 103-134): genuine
lat/lon when both non-null and non-NaN, else the spread around the region
center, with the code's NaN validations; `none` is the loop's `continue`.
`spreadO` is the oracle standing for `spreadAroundRegion` (whose output
depends on `Math.random`); it receives the iteration index and the region
center `(regionCenter.lat, regionCenter.lng)` the code passes and returns
the synthesized `(lat, lon)` pair. -/
def postCoords (spreadO : ℕ → JsNum × JsNum → JsNum × JsNum)
    (center : JsNum × JsNum) (i : ℕ) (p : UnifiedPost) :
    Option (JsNum × JsNum) :=
  -- `2. Everything else → spread around region center`
  let spreadCoords : Option (JsNum × JsNum) :=
    if jsIsNaN center.1 || jsIsNaN center.2 then none
    else
      let pt := spreadO i center
      if jsIsNaN pt.1 || jsIsNaN pt.2 then none else some (pt.2, pt.1)
  -- `1. GDELT posts have REAL LAT/LON`
  let coords : Option (JsNum × JsNum) :=
    match p.lat, p.lon with
    | some la, some lo =>
      if !jsIsNaN la && !jsIsNaN lo then some (lo, la) else spreadCoords
    | _, _ => spreadCoords
  -- `Final validation`
  finalValidate coords

/-- Loop of `formatMapData` (part_004 lines 99-159): classify, assign a
coordinate via `postCoords`, emit a feature or skip. -/
def formatMapDataGo (env : ClassifyEnv)
    (spreadO : ℕ → JsNum × JsNum → JsNum × JsNum) (center : JsNum × JsNum) :
    ℕ → List UnifiedPost → List MapFeature × List Effect
  | _, [] => ([], [])
  | i, p :: rest =>
    let cls := classifyEmotion env (some p.text)
    let t := formatMapDataGo env spreadO center (i + 1) rest
    match postCoords spreadO center i p with
    | none => (t.1, cls.2 ++ t.2)
    | some c =>
      let f : MapFeature :=
        { coordinates := c
          emotion := cls.1.emotion
          confidence := cls.1.confidence
          intensity := cls.1.confidence
          color := EmotionColorMap cls.1.emotion
          text := p.text
          source := p.source
          url := if p.uri = "" then none else some p.uri
          createdAt := p.createdAt
          tone := p.tone }
      (f :: t.1, cls.2 ++ t.2)

/-- Embedding of `formatMapData` (part_004 lines 85-165): features plus the
effect log of the per-post classification calls. -/
def formatMapData (env : ClassifyEnv)
    (spreadO : ℕ → JsNum × JsNum → JsNum × JsNum)
    (posts : List UnifiedPost) (center : JsNum × JsNum) :
    List MapFeature × List Effect :=
  formatMapDataGo env spreadO center 0 posts

/-- Fixture: an environment with no API key (classification degrades,
irrelevant to coordinates). -/
def wEnv : ClassifyEnv := ⟨none, fun _ => none⟩

/-- Fixture: spread oracle returning the center itself. -/
def wSpread : ℕ → JsNum × JsNum → JsNum × JsNum := fun _ c => c

/-- Fixture: a post with `lat = Infinity`, `lon = 0` — both non-null and
non-NaN, so `formatMapData` takes the genuine-coordinate branch. -/
def wPostInfLat : UnifiedPost :=
  { text := "t", createdAt := "2025-01-01", source := "gdelt", uri := ""
    cid := "c0", lat := some .inf, lon := some (.fin 0), tone := none }

/-- Fixture: a post with genuine finite coordinates lat 1, lon 2. -/
def wPostFin : UnifiedPost :=
  { text := "genuine", createdAt := "2025-01-01", source := "gdelt", uri := ""
    cid := "c1", lat := some (.fin 1), lon := some (.fin 2), tone := none }

-- =====================
-- SPREAD UTILITY (src/utils/spreadUtil.ts)
-- =====================

/-- Embedding of `spreadAroundRegion` (spreadUtil.ts lines 14-34) over the
reals (the function is transcendental, so this part of the development is
not executable).  `u` and `v` are the two `Math.random()` draws, for the
bearing and the radial distance respectively; `center = (lat, lon)`.  -/
noncomputable def spreadAroundRegion (center : ℝ × ℝ) (spreadKm : ℝ)
    (u v : ℝ) : ℝ × ℝ :=
  -- `const angle = Math.random() * 2 * Math.PI`
  let angle := u * 2 * Real.pi
  -- `const distance = Math.sqrt(Math.random()) * (spreadKm / 100)`
  let distance := Real.sqrt v * (spreadKm / 100)
  -- `const offsetLat = (Math.cos(angle) * distance) / 1.111`
  let offsetLat := Real.cos angle * distance / 1.111
  -- `const offsetLon = (Math.sin(angle) * distance) /
  --    (1.111 * Math.cos(center.lat * Math.PI / 180))`
  let offsetLon :=
    Real.sin angle * distance / (1.111 * Real.cos (center.1 * Real.pi / 180))
  (center.1 + offsetLat, center.2 + offsetLon)

/-- The distance check of the claim: the standard equirectangular
great-circle approximation (1° ≈ 111 km, longitude difference scaled by
the cosine of the reference latitude), in kilometres. -/
noncomputable def approxDistKm (c p : ℝ × ℝ) : ℝ :=
  111 * Real.sqrt ((p.1 - c.1) ^ 2 +
    ((p.2 - c.2) * Real.cos (c.1 * Real.pi / 180)) ^ 2)

-- =====================
-- REGION FILTER (src/utils/regionFilter.ts)
-- =====================

/-- Model of JavaScript `toLowerCase()` (ASCII case mapping, which covers
every key the tables use). -/
def jsToLower (s : String) : String :=
  String.mk (s.toList.map Char.toLower)

/-- Characters kept by `normalize`'s `[^a-z0-9# ]` removal. -/
def isNormChar (c : Char) : Bool :=
  ('a' ≤ c && c ≤ 'z') || ('0' ≤ c && c ≤ '9') || c = '#' || c = ' '

/-- `normalize` (regionFilter.ts lines 84-86): lowercase, then delete every
character outside `[a-z0-9# ]`. -/
def normalize (s : String) : String :=
  String.mk ((jsToLower s).toList.filter isNormChar)

/-- `RegionKeywords` (regionFilter.ts lines 18-76), in object insertion
order (which drives the `Object.entries` scan of `extractMainRegion`). -/
def RegionKeywords : List (String × List String) :=
  [("new york",
    ["new york", "newyork", "manhattan", "brooklyn", "queens", "bronx",
     "staten island", "harlem", "times square", "empire state", "central park",
     "#nyc", "#newyork", "#manhattan", "#brooklyn"]),
   ("los angeles",
    ["los angeles", "losangeles", "hollywood", "santa monica", "venice beach",
     "beverly hills", "malibu", "downtown la", "dtla", "la county",
     "#la", "#losangeles", "#hollywood"]),
   ("miami",
    ["miami", "miami beach", "south beach", "dade county", "miami dade",
     "#miami", "#miamibeach"]),
   ("chicago",
    ["chicago", "chitown", "windy city", "loop", "magnificent mile",
     "#chicago", "#chitown"]),
   ("houston",
    ["houston", "htown", "space city", "bayou city", "#houston", "#htown"]),
   ("london",
    ["london", "greater london", "westminster", "camden", "greenwich",
     "#london", "#uk"]),
   ("paris",
    ["paris", "paris france", "eiffel tower", "champs elysees", "#paris"]),
   ("tokyo",
    ["tokyo", "tokyo japan", "shibuya", "shinjuku", "harajuku",
     "#tokyo", "#japan"]),
   ("toronto",
    ["toronto", "toronto ontario", "downtown toronto", "yonge street",
     "#toronto", "#canada"]),
   ("brazil",
    ["brazil", "brasil", "rio de janeiro", "são paulo", "sao paulo",
     "rio", "brazilian", "#brazil", "#brasil", "#rio"]),
   ("haiti",
    ["haiti", "haitian", "port-au-prince", "port au prince", "#haiti"]),
   ("beirut",
    ["beirut", "beyrouth", "beirut lebanon", "lebanon", "#beirut", "#lebanon"]),
   ("ohio",
    ["ohio", "oh", "columbus ohio", "cleveland", "cincinnati", "#ohio"]),
   ("default", [])]

/-- ASCII letter (the `[a-z]` class with the `/i` flag). -/
def isAsciiAlpha (c : Char) : Bool :=
  ('a' ≤ c && c ≤ 'z') || ('A' ≤ c && c ≤ 'Z')

/-- Does the suffix starting here match `,?\s*(united states|usa|us)$`
(first replace of `extractMainRegion`, regionFilter.ts line 115)? -/
def sfx1Match (l : List Char) : Bool :=
  let l1 := if l.head? = some ',' then l.tail else l
  let l2 := l1.dropWhile jsIsSpace
  l2 = "united states".toList || l2 = "usa".toList || l2 = "us".toList

/-- Does the suffix starting here match `,?\s*[a-z]{2}$` (second replace of
`extractMainRegion`, regionFilter.ts line 116)? -/
def sfx2Match (l : List Char) : Bool :=
  let l1 := if l.head? = some ',' then l.tail else l
  let l2 := l1.dropWhile jsIsSpace
  match l2 with
  | [a, b] => isAsciiAlpha a && isAsciiAlpha b
  | _ => false

/-- Index of the leftmost position whose suffix satisfies `isMatch`
(JavaScript regexes find the match with the smallest start index). -/
def firstMatchIdx (isMatch : List Char → Bool) : List Char → Option ℕ
  | [] => if isMatch [] then some 0 else none
  | c :: rest =>
    if isMatch (c :: rest) then some 0
    else (firstMatchIdx isMatch rest).map (· + 1)

/-- `s.replace(re, '')` for an end-anchored regex: delete from the leftmost
match position to the end of the string. -/
def replaceEndMatch (isMatch : List Char → Bool) (s : String) : String :=
  match firstMatchIdx isMatch s.toList with
  | some i => String.mk (s.toList.take i)
  | none => s

/-- `extractMainRegion` (regionFilter.ts lines 99-121). -/
def extractMainRegion (fullRegion : String) : String :=
  let lower := jsToLower fullRegion
  match RegionKeywords.find? fun kv => kv.1 ≠ "default" && jsIncludes lower kv.1 with
  | some kv => kv.1
  | none =>
    let s1 := replaceEndMatch sfx1Match lower
    let s2 := replaceEndMatch sfx2Match s1
    -- `.split(',')[0]` : the prefix before the first comma
    jsTrim (String.mk (s2.toList.takeWhile fun c => c ≠ ','))

/-- `RegionKeywords[mainRegion] || RegionKeywords["default"]`
(regionFilter.ts line 139; an absent key falls back to the empty default
list). -/
def regionKeysFor (mainRegion : String) : List String :=
  match RegionKeywords.find? fun kv => kv.1 = mainRegion with
  | some kv => kv.2
  | none => []

/-- Word characters of the JavaScript regex `\b` boundary (`[A-Za-z0-9_]`). -/
def isWordChar (c : Char) : Bool :=
  ('a' ≤ c && c ≤ 'z') || ('A' ≤ c && c ≤ 'Z') || ('0' ≤ c && c ≤ '9') || c = '_'

/-- Word-ness of an optional character; positions outside the string count
as non-word. -/
def isWordCharOpt : Option Char → Bool
  | some c => isWordChar c
  | none => false

/-- Does `\bKEY\b` match `text` starting at index `i`?  A `\b` holds where
word-ness changes between adjacent positions. -/
def wordBoundaryMatchAt (key text : List Char) (i : ℕ) : Bool :=
  startsWithChars key (text.drop i) &&
  (isWordCharOpt (if i = 0 then none else text.get? (i - 1)) !=
    isWordCharOpt key.head?) &&
  (isWordCharOpt (text.get? (i + key.length)) != isWordCharOpt key.getLast?)

/-- `new RegExp('\\b' + escaped + '\\b', 'i').test(text)`.  The escaping in
the source only quotes regex metacharacters, so on the normalized inputs
the pattern is the literal key; both sides are already lowercase, making
the `i` flag a no-op here. -/
def regexWordBoundaryTest (key text : String) : Bool :=
  (List.range (text.length + 1)).any fun i =>
    wordBoundaryMatchAt key.toList text.toList i

/-- `filterByRegion` (regionFilter.ts lines 132-239).  TypeScript
duck-types the posts (only `post.text` is read), which the embedding makes
explicit with `textOf`. -/
def filterByRegion {α : Type} (textOf : α → String)
    (posts : List α) (region : String) : List α :=
  let mainRegion := extractMainRegion region
  let regionKeys := regionKeysFor mainRegion
  if regionKeys.length = 0 then
    let mainRegionName := extractMainRegion region
    let normalizedMainRegion := normalize mainRegionName
    -- `Only use fallback if we have a meaningful region name (at least 3 chars)`
    if normalizedMainRegion.length ≥ 3 then
      posts.filter fun post =>
        regexWordBoundaryTest normalizedMainRegion (normalize (textOf post))
    else
      -- `If we can't extract a meaningful region name, return empty array`
      []
  else
    let normalizedKeys := regionKeys.map normalize
    posts.filter fun post =>
      let text := normalize (textOf post)
      normalizedKeys.any fun key =>
        if key.startsWith "#" then jsIncludes text key
        else if key.length ≤ 3 then regexWordBoundaryTest key text
        else if jsIncludes key " " then jsIncludes text key
        else regexWordBoundaryTest key text

/-- `BlueskyPost` shape (blueskyClient.ts), as much as the filter and the
buffer read. -/
structure BlueskyPost where
  text : String
  source : String
  createdAt : String
  uri : String
  cid : String
deriving DecidableEq, Repr

-- =====================
-- COUNTRY CODE MAP (src/utils/countryMap.ts, src/unnamed/part_003 lines 10-21)
-- =====================

/-- `countryCodeMap` (countryMap.ts lines 7-78) in object insertion order.
The source literal repeats `"new york": "us"`; a JavaScript object keeps
the first occurrence's position (the value is `"us"` both times), so the
entry appears once here. -/
def countryCodeMap : List (String × String) :=
  [("united states", "us"), ("usa", "us"), ("us", "us"), ("america", "us"),
   ("new york", "us"), ("los angeles", "us"), ("chicago", "us"),
   ("houston", "us"), ("miami", "us"), ("california", "us"), ("texas", "us"),
   ("florida", "us"),
   ("canada", "ca"), ("united kingdom", "gb"), ("uk", "gb"), ("england", "gb"),
   ("london", "gb"), ("france", "fr"), ("paris", "fr"), ("germany", "de"),
   ("japan", "jp"), ("tokyo", "jp"), ("brazil", "br"), ("brasil", "br"),
   ("india", "in"), ("nigeria", "ng"), ("south africa", "za"),
   ("mexico", "mx"), ("haiti", "ht"), ("netherlands", "nl"), ("holland", "nl"),
   ("australia", "as"), ("austria", "au"), ("china", "ch"), ("russia", "rs"),
   ("spain", "sp"), ("italy", "it"), ("sweden", "sw"), ("norway", "no"),
   ("denmark", "da"), ("finland", "fi"), ("ireland", "ei"),
   ("new zealand", "nz"), ("argentina", "ar"), ("colombia", "co"),
   ("egypt", "eg"), ("saudi arabia", "sa"), ("united arab emirates", "ae"),
   ("turkey", "tu"), ("indonesia", "id"), ("philippines", "rp"),
   ("thailand", "th"), ("vietnam", "vm"), ("south korea", "ks"),
   ("pakistan", "pk"), ("bangladesh", "bg"), ("iran", "ir"), ("israel", "is"),
   ("greece", "gr"), ("poland", "pl"), ("switzerland", "sz"),
   ("belgium", "be"), ("lebanon", "le"), ("default", "us")]

/-- `getCountryCode` (countryMap.ts lines 85-88): exact lookup of the
lowercased, trimmed name, `"us"` when absent. -/
def getCountryCode (countryName : String) : String :=
  let normalized := jsTrim (jsToLower countryName)
  match countryCodeMap.find? fun kv => kv.1 == normalized with
  | some kv => kv.2
  | none => "us"

/-- Loop condition of `extractCountryFromRegion` (part_003 lines 13-18):
skip `"default"`, keep the first key contained in the lowercased region. -/
def countryKeyMatches (region : String) (kv : String × String) : Bool :=
  kv.1 ≠ "default" && jsIncludes (jsToLower region) kv.1

/-- `extractCountryFromRegion` (part_003 lines 10-21): first
substring-matching entry of `countryCodeMap` in insertion order, else
`getCountryCode`. -/
def extractCountryFromRegion (region : String) : String :=
  match countryCodeMap.find? (countryKeyMatches region) with
  | some kv => kv.2
  | none => getCountryCode region

-- =====================
-- GDELT CLIENT SECONDARY FILTER (src/unnamed/part_006 lines 190-247)
-- =====================

/-- A GDELT article after the mapping step of `fetchGdeltEvents`
(part_006 lines 139-185); the secondary filter reads `region`
(the source-country field) and `text`. -/
structure GdeltEvent where
  text : String
  createdAt : ℤ
  region : String
  url : Option String
  coordinates : Option (JsNum × JsNum)
  tone : Option JsNum
deriving DecidableEq, Repr

/-- `countryVariations[requestedCountry] || [requestedCountry]`
(part_006 lines 213-219). -/
def countryVariations (requested : String) : List String :=
  if requested = "united states" then ["united states", "usa", "us", "america"]
  else if requested = "netherlands" then
    ["netherlands", "holland", "dutch", "nederland"]
  else if requested = "united kingdom" then
    ["united kingdom", "uk", "britain", "england"]
  else [requested]

/-- `requestedCountry.split(' ')[0]`: the prefix before the first space. -/
def firstWord (s : String) : String :=
  String.mk (s.toList.takeWhile fun c => c ≠ ' ')

/-- The secondary in-process filter predicate of `fetchGdeltEvents`
(part_006 lines 198-227). -/
def gdeltKeep (countryName : String) (e : GdeltEvent) : Bool :=
  let requestedCountry := jsToLower countryName
  let eventCountry := jsToLower e.region
  let eventText := jsToLower e.text
  -- `Priority 1: Exact country match in sourcecountry`
  if eventCountry == requestedCountry then true
  else
    -- `Priority 2: Country name appears in article text`
    let countryInText := jsIncludes eventText requestedCountry ||
      jsIncludes eventText (firstWord requestedCountry)
    let variations := countryVariations requestedCountry
    let matchesVariation := variations.any fun v =>
      jsIncludes eventCountry v || jsIncludes v eventCountry ||
        jsIncludes eventText v
    countryInText || matchesVariation

/-- The post-fetch processing of `fetchGdeltEvents` (part_006 lines
190-247): optional secondary filter, the below-half-the-limit fallback to
the unfiltered list, and the final `slice(0, limit)`. -/
def fetchGdeltEventsFilter (allEvents : List GdeltEvent)
    (countryName : Option String) (limit : ℕ) : List GdeltEvent :=
  let filteredEvents :=
    match countryName with
    | some cn =>
      let f := allEvents.filter (gdeltKeep cn)
      -- `if (filteredEvents.length < limit / 2 && allEvents.length > 0)`
      if (f.length : ℚ) < (limit : ℚ) / 2 ∧ 0 < allEvents.length then
        allEvents
      else f
    | none => allEvents
  filteredEvents.take limit

/-- The filter predicate as the claim words it (for comparison with
`gdeltKeep`): keep iff the source-country field exactly equals the
requested country (case-insensitive), or the text or the source-country
contains the country name or a known alias/variant. -/
def gdeltKeepClaim (countryName : String) (e : GdeltEvent) : Bool :=
  let req := jsToLower countryName
  let ec := jsToLower e.region
  let et := jsToLower e.text
  let aliases := countryVariations req
  ec == req || aliases.any fun v => jsIncludes et v || jsIncludes ec v

/-- The filter predicate as the amended claim words it: additionally keep
when the text contains the first word of the requested name, or when an
alias/variant contains the source-country field (reverse containment,
which in particular keeps every article whose source-country is empty). -/
def gdeltKeepAmended (countryName : String) (e : GdeltEvent) : Bool :=
  let req := jsToLower countryName
  let ec := jsToLower e.region
  let et := jsToLower e.text
  let vars := countryVariations req
  ec == req || jsIncludes et req || jsIncludes et (firstWord req) ||
    vars.any fun v => jsIncludes ec v || jsIncludes v ec || jsIncludes et v

/-- Fixture for C5: an article with an empty source-country field whose
text does not mention the requested country at all. -/
def wGdeltEvent : GdeltEvent :=
  { text := "hello world", createdAt := 0, region := "", url := none
    coordinates := none, tone := none }

-- =====================
-- CHAT ROUTE (src/app/api/chat/route.ts)
-- =====================

/-- One entry of `topTweets`. -/
structure TopTweet where
  text : String
  emotion : String
deriving DecidableEq, Repr

/-- A JSON value as far as the chat handler's validation inspects it.
Array contents are typed as the tweets the handler would slice. -/
inductive JVal where
  | jstr (s : String)
  | jnum (q : ℚ)
  | jbool (b : Bool)
  | jobj
  | jarr (tweets : List TopTweet)
  | jnull
  | jundef
deriving DecidableEq, Repr

/-- JavaScript falsiness of a `JVal` (`!x`). -/
def jvalFalsy : JVal → Bool
  | .jstr s => s = ""
  | .jnum q => q = 0
  | .jbool b => !b
  | .jobj => false
  | .jarr _ => false
  | .jnull => true
  | .jundef => true

/-- `typeof x === 'string'`. -/
def isJStr : JVal → Bool
  | .jstr _ => true
  | _ => false

/-- `typeof x === 'object'` (objects, arrays and `null`). -/
def isJObjType : JVal → Bool
  | .jobj => true
  | .jarr _ => true
  | .jnull => true
  | _ => false

/-- The string payload of a `JVal` (only read after `isJStr` holds). -/
def jvalStr : JVal → String
  | .jstr s => s
  | _ => ""

/-- `!question || typeof question !== 'string' ||
question.trim().length === 0` (chat route lines 48). -/
def chatQuestionInvalid (v : JVal) : Bool :=
  jvalFalsy v || !isJStr v || (jsTrim (jvalStr v)).length == 0

/-- `!emotionsSummary || typeof emotionsSummary !== 'object'` (line 65). -/
def chatSummaryInvalid (v : JVal) : Bool :=
  jvalFalsy v || !isJObjType v

/-- `!region || typeof region !== 'string'` (line 73). -/
def chatRegionInvalid (v : JVal) : Bool :=
  jvalFalsy v || !isJStr v

/-- The request body of the chat handler: the four inputs. -/
structure ChatBody where
  question : JVal
  emotionsSummary : JVal
  topTweets : JVal
  region : JVal
deriving DecidableEq, Repr

/-- Outcome of the single OpenAI call the handler may make. -/
inductive LlmResult where
  | netError (msg : String)
  | httpError (status : ℕ)
  | content (answer : String)
deriving DecidableEq, Repr

/-- Environment of the chat handler. -/
structure ChatEnv where
  apiKey : Option String
  llm : LlmResult

/-- A response of the chat handler: `{answer}` or `{error, details}` with
an HTTP status. -/
inductive ChatResult where
  | ok (answer : String)
  | err (status : ℕ) (error : String) (details : String)
deriving DecidableEq, Repr

/-- Embedding of the chat route `POST` handler (chat/route.ts lines
39-204): sequential validation of question / API key / emotionsSummary /
region, `topTweets` defaulted (never rejected), then one LLM call. -/
def chatPOST (env : ChatEnv) (body : ChatBody) : ChatResult × List Effect :=
  if chatQuestionInvalid body.question then
    (.err 400 "Chat processing failed" "Missing or invalid question", [])
  else
    match env.apiKey with
    | none =>
      (.err 500 "Chat processing failed" "OPENAI_API_KEY is not configured", [])
    | some _ =>
      if chatSummaryInvalid body.emotionsSummary then
        (.err 400 "Chat processing failed" "Missing or invalid emotionsSummary",
         [])
      else if chatRegionInvalid body.region then
        (.err 400 "Chat processing failed" "Missing or invalid region", [])
      else
        -- `const tweets = Array.isArray(topTweets) ? topTweets.slice(0, 10) : []`
        let _tweets : List TopTweet :=
          match body.topTweets with
          | .jarr l => l.take 10
          | _ => []
        match env.llm with
        | .netError msg =>
          (.err 500 "Chat processing failed" msg, [.llmCall])
        | .httpError st =>
          (.err st "Chat processing failed"
            ("OpenAI API error: " ++ toString st), [.llmCall])
        | .content a =>
          -- `if (!answer)` : an absent or empty completion is an error
          if a = "" then
            (.err 500 "Chat processing failed" "No response from OpenAI",
             [.llmCall])
          else (.ok (jsTrim a), [.llmCall])

-- =====================
-- FIREHOSE POST BUFFER (src/utils/blueskyFirehose.ts lines 31-141)
-- =====================

namespace PostBuffer

/-- A buffered post: the post plus the time it entered the buffer. -/
structure BufferedPost where
  post : BlueskyPost
  timestamp : ℤ
deriving DecidableEq, Repr

/-- `maxSize = 1000` (blueskyFirehose.ts line 33). -/
def maxSize : ℕ := 1000

/-- `maxAge = 60 * 60 * 1000` milliseconds (line 34). -/
def maxAge : ℤ := 60 * 60 * 1000

/-- `Array.prototype.slice(-n)`: the last `n` elements. -/
def takeRight {α : Type} (n : ℕ) (l : List α) : List α :=
  l.drop (l.length - n)

/-- `cleanup` (lines 87-90): drop every post at least `maxAge` old. -/
def cleanup (now : ℤ) (posts : List BufferedPost) : List BufferedPost :=
  posts.filter fun q => now - q.timestamp < maxAge

/-- `addPost` (lines 50-82): stamp with the current time, drop any earlier
copy with the same CID, append, cap at `maxSize` newest, then clean up. -/
def addPost (now : ℤ) (p : BlueskyPost) (buf : List BufferedPost) :
    List BufferedPost :=
  let bufferedPost : BufferedPost := ⟨p, now⟩
  -- `Remove duplicates (by CID)`
  let posts1 := buf.filter fun q => q.post.cid ≠ p.cid
  -- `Add new post`
  let posts2 := posts1 ++ [bufferedPost]
  -- `Remove oldest posts if over limit`
  let posts3 := if posts2.length > maxSize then takeRight maxSize posts2 else posts2
  cleanup now posts3

/-- `getPosts` (lines 95-113): clean up, optionally filter by query
substring, sort newest-first, truncate, and strip the timestamps.
Returns the returned list and the buffer state after the read. -/
def getPosts (now : ℤ) (query : Option String) (limit : ℕ)
    (buf : List BufferedPost) : List BlueskyPost × List BufferedPost :=
  let cleaned := cleanup now buf
  -- `if (query)` : null/empty query skips the filter
  let filtered :=
    match query with
    | some q =>
      if q = "" then cleaned
      else cleaned.filter fun p => jsIncludes (jsToLower p.post.text) (jsToLower q)
    | none => cleaned
  -- `filtered.sort((a, b) => b.timestamp - a.timestamp)` : newest first
  let sorted := filtered.mergeSort fun a b => b.timestamp ≤ a.timestamp
  ((sorted.take limit).map (·.post), cleaned)

/-- A sequence of `addPost` calls on the initially empty buffer, each pair
giving the post and the `Date.now()` at that call. -/
def runAdds (adds : List (BlueskyPost × ℤ)) : List BufferedPost :=
  adds.foldl (fun st a => addPost a.2 a.1 st) []

end PostBuffer

-- =====================
-- TWEETS ROUTE (src/unnamed/part_003)
-- =====================

/-- The emotion label as the string it serialises to. -/
def emotionToString : Emotion → String
  | .anger => "anger"
  | .sadness => "sadness"
  | .fear => "fear"
  | .joy => "joy"
  | .hope => "hope"
  | .neutral => "neutral"

/-- `s.substring(0, n)`: the first `n` characters. -/
def takeChars (n : ℕ) (s : String) : String :=
  String.mk (s.toList.take n)

/-- A NewsAPI article as `fetchNewsForCountry` returns it
(newsApiClient.ts lines 7-14); `source` is the constant `'newsapi'` and
`coordinates` is always null. -/
structure NewsPost where
  text : String
  createdAt : ℤ
  region : String
  url : String
deriving DecidableEq, Repr

/-- The uniform post shape built at part_003 lines 177-198. -/
structure CombinedPost where
  text : String
  createdAt : String
  source : String
  uri : String
  cid : String
  lat : Option JsNum
  lon : Option JsNum
  tone : Option JsNum
deriving DecidableEq, Repr

/-- part_003 lines 177-185: NewsAPI → uniform format (`iso` models
`new Date(x).toISOString()`). -/
def newsToCombined (iso : ℤ → String) (idx : ℕ) (np : NewsPost) :
    CombinedPost :=
  { text := np.text
    createdAt := iso np.createdAt
    source := "newsapi"
    uri := if np.url = "" then "newsapi-" ++ toString idx else np.url
    cid := "newsapi-" ++ toString idx
    lat := none
    lon := none
    tone := none }

/-- part_003 lines 189-198: GDELT → uniform format; GDELT coordinates are
`[lng, lat]`, so `lat` is the second component. -/
def gdeltToCombined (iso : ℤ → String) (idx : ℕ) (gp : GdeltEvent) :
    CombinedPost :=
  { text := gp.text
    createdAt := iso gp.createdAt
    source := "gdelt"
    uri := match gp.url with
      | some u => if u = "" then "gdelt-" ++ toString idx else u
      | none => "gdelt-" ++ toString idx
    cid := "gdelt-" ++ toString idx
    lat := gp.coordinates.map (·.2)
    lon := gp.coordinates.map (·.1)
    tone := gp.tone }

/-- `PostWithEmotion` (part_003 lines 26-35). -/
structure PostWithEmotion where
  id : String
  text : String
  created_at : String
  author_id : String
  emotion : EmotionResult
  source : String
  uri : String
  cid : String
deriving DecidableEq, Repr

/-- `ResponseData` (part_003 lines 37-44). -/
structure ResponseData where
  region : String
  coordinates : JsNum × JsNum
  geoJson : List MapFeature
  emotionsSummary : EmotionsSummary
  topPosts : List TopTweet
  posts : List PostWithEmotion
deriving DecidableEq, Repr

/-- `CacheEntry` (part_003 lines 46-49). -/
structure CacheEntry where
  timestamp : ℤ
  data : ResponseData
deriving DecidableEq, Repr

/-- The module-level `cache: Record<string, CacheEntry>`. -/
def Cache : Type := List (String × CacheEntry)

/-- `cache[k]`. -/
def cacheFind (c : Cache) (k : String) : Option CacheEntry :=
  ((c : List (String × CacheEntry)).find? fun kv => kv.1 == k).map (·.2)

/-- `delete cache[k]`. -/
def cacheDelete (c : Cache) (k : String) : Cache :=
  (c : List (String × CacheEntry)).filter fun kv => kv.1 ≠ k

/-- `cache[k] = v`. -/
def cacheInsert (c : Cache) (k : String) (v : CacheEntry) : Cache :=
  ((c : List (String × CacheEntry)).filter fun kv => kv.1 ≠ k) ++ [(k, v)]

/-- The outcome of the tweets `POST` handler: the success payload or one
of its three 404 shapes (part_003 lines 128-134, 204-212, 244-252). -/
inductive RouteResult where
  | ok (d : ResponseData)
  | errRegion (details : String)
  | errNoPosts (error suggestion : String) (region : String)
      (coords : JsNum × JsNum)
  | errFiltered (error suggestion : String) (region : String)
      (coords : JsNum × JsNum)
deriving DecidableEq, Repr

/-- Environment of the tweets route: classifier environment, spread
oracle, and the three upstream fetches (`error` = the call threw, which
the route catches). -/
structure RouteEnv where
  classify : ClassifyEnv
  spreadO : ℕ → JsNum × JsNum → JsNum × JsNum
  geocode : String → Except String (JsNum × JsNum)
  fetchNews : String → ℕ → Option String → Except Unit (List NewsPost)
  fetchGdelt : ℕ → Except Unit (List GdeltEvent)
  iso : ℤ → String

/-- `regionQuery` (part_003 line 95): trimmed when region is a truthy
string, else the empty string. -/
def tweetsRegionQuery (bodyRegion : JVal) : String :=
  if !jvalFalsy bodyRegion && isJStr bodyRegion then jsTrim (jvalStr bodyRegion)
  else ""

/-- `cacheKey` (part_003 line 102): lowercase-trimmed region key or
`"global"`. -/
def tweetsCacheKey (bodyRegion : JVal) : String :=
  let regionQuery := tweetsRegionQuery bodyRegion
  if regionQuery ≠ "" then "region:" ++ jsTrim (jsToLower regionQuery)
  else "global"

/-- Steps 3-9 of the tweets handler (part_003 lines 142-354), independent
of the cache: result, the entry to store on success, and the upstream
calls made.  `regionName`/`regionCoords` come from step 2. -/
def tweetsPipelineCore (env : RouteEnv) (now : ℤ) (regionQuery : String)
    (regionName : String) (regionCoords : JsNum × JsNum)
    (eff0 : List Effect) :
    RouteResult × Option CacheEntry × List Effect :=
  -- STEP 3 — FETCH POSTS FROM MULTIPLE SOURCES
  let countryCode :=
    if regionQuery ≠ "" then extractCountryFromRegion regionQuery
    else "us"  -- `countryCodeMap["default"]`
  let mainRegionName : Option String :=
    if regionQuery ≠ "" then some (extractMainRegion regionQuery) else none
  let newsPosts := match env.fetchNews countryCode 200 mainRegionName with
    | .ok l => l
    | .error _ => []
  let gdeltPosts := match env.fetchGdelt 250 with
    | .ok l => l
    | .error _ => []
  let eff1 := eff0 ++ [.newsCall countryCode 200 mainRegionName, .gdeltCall 250]
  let newsPostsFormatted :=
    newsPosts.enum.map fun ip => newsToCombined env.iso ip.1 ip.2
  let gdeltPostsFormatted :=
    gdeltPosts.enum.map fun ip => gdeltToCombined env.iso ip.1 ip.2
  let combined := newsPostsFormatted ++ gdeltPostsFormatted
  if combined.length = 0 then
    (.errNoPosts
      ("No posts found for region: " ++
        (if regionQuery ≠ "" then regionQuery else "global"))
      ("Could not fetch posts from NewsAPI or GDELT. Make sure NEWSAPI_KEY is set in your environment variables, or try a different region.")
      regionName regionCoords,
     none, eff1)
  else
    let filteredPosts :=
      if regionQuery ≠ "" then
        filterByRegion CombinedPost.text combined (extractMainRegion regionQuery)
      else combined
    if regionQuery ≠ "" ∧ filteredPosts.length = 0 then
      (.errFiltered ("No posts found matching region: " ++ regionQuery)
        ("Found " ++ toString combined.length ++ " posts but none mentioned \"" ++ regionQuery ++ "\" in the title or description. NewsAPI only filters by country, so city-specific filtering is limited. Try searching for a country instead, or a larger city.")
        regionName regionCoords,
       none, eff1)
    else
      -- STEP 4 — EMOTION CLASSIFICATION
      let postTexts := filteredPosts.map (·.text)
      let batch := classifyEmotionsBatch env.classify postTexts
      let emotionResults := batch.1
      -- STEP 5 — FORMAT POSTS FOR MAP
      let postsWithEmotions : List PostWithEmotion :=
        (filteredPosts.zip emotionResults).enum.map fun ipe =>
          { id := if ipe.2.1.uri = "" then "post-" ++ toString ipe.1
              else ipe.2.1.uri
            text := ipe.2.1.text
            created_at := ipe.2.1.createdAt
            author_id := if ipe.2.1.cid = "" then "author-" ++ toString ipe.1
              else ipe.2.1.cid
            emotion := ipe.2.2
            source := ipe.2.1.source
            uri := ipe.2.1.uri
            cid := ipe.2.1.cid }
      let emotionsSummary := generateEmotionsSummary emotionResults
      -- STEP 6 — FORMAT MAP DATA (lat/lon cleared so the formatter spreads)
      let unifiedPosts : List UnifiedPost :=
        postsWithEmotions.enum.map fun ip =>
          { text := ip.2.text
            createdAt := ip.2.created_at
            source := ip.2.source
            uri := ip.2.uri
            cid := if ip.2.cid = "" then "post-" ++ toString ip.1 else ip.2.cid
            lat := none
            lon := none
            tone := none }
      let fmt := formatMapData env.classify env.spreadO unifiedPosts regionCoords
      -- STEP 7 — TOP POSTS (HIGHEST CONFIDENCE)
      let topPosts : List TopTweet :=
        (((postsWithEmotions.filter fun p => p.text ≠ "").mergeSort
            fun a b => b.emotion.confidence ≤ a.emotion.confidence).take 10).map
          fun p => ⟨takeChars 280 p.text, emotionToString p.emotion.emotion⟩
      -- STEP 8 — RESPONSE
      let responseData : ResponseData :=
        { region := regionName
          coordinates := regionCoords
          geoJson := fmt.1
          emotionsSummary := emotionsSummary
          topPosts := topPosts
          posts := postsWithEmotions }
      -- STEP 9 — CACHE THE RESULT (the entry the caller stores)
      (.ok responseData, some ⟨now, responseData⟩, eff1 ++ batch.2 ++ fmt.2)

/-- STEP 2 (part_003 lines 117-140) followed by the core: geocode unless
the request is global (then center (0,0), name "Global"), with a geocode
failure surfacing as the 404 `'Region not found or invalid'`. -/
def tweetsStaged (env : RouteEnv) (now : ℤ) (regionQuery : String) :
    RouteResult × Option CacheEntry × List Effect :=
  if regionQuery ≠ "" then
    match env.geocode regionQuery with
    | .error details =>
      (RouteResult.errRegion details, (none : Option CacheEntry),
       [Effect.geocodeCall regionQuery])
    | .ok regionCoords =>
      tweetsPipelineCore env now regionQuery regionQuery regionCoords
        [Effect.geocodeCall regionQuery]
  else
    tweetsPipelineCore env now "" "Global" (.fin 0, .fin 0) []

/-- STEP 9: write the staged entry (if any) to the cache under the
request's key. -/
def applyStore (cache : Cache) (cacheKey : String) :
    RouteResult × Option CacheEntry × List Effect →
      RouteResult × Cache × List Effect
  | (r, some e, eff) => (r, cacheInsert cache cacheKey e, eff)
  | (r, none, eff) => (r, cache, eff)

/-- Steps 2-9 (part_003 lines 117-354). -/
def tweetsPipeline (env : RouteEnv) (cache : Cache) (now : ℤ)
    (regionQuery cacheKey : String) :
    RouteResult × Cache × List Effect :=
  applyStore cache cacheKey (tweetsStaged env now regionQuery)

/-- The tweets `POST` handler (part_003 lines 86-366): cache check with
lazy 30 s expiry, then the pipeline. -/
def tweetsPOST (env : RouteEnv) (cache : Cache) (now : ℤ)
    (bodyRegion : JVal) : RouteResult × Cache × List Effect :=
  let regionQuery := tweetsRegionQuery bodyRegion
  let cacheKey := tweetsCacheKey bodyRegion
  match cacheFind cache cacheKey with
  | some entry =>
    -- `const age = Date.now() - cachedEntry.timestamp`
    if now - entry.timestamp < 30000 then (.ok entry.data, cache, [])
    else
      -- `Cache expired, delete it` — then fall through to the pipeline
      tweetsPipeline env (cacheDelete cache cacheKey) now regionQuery cacheKey
  | none => tweetsPipeline env cache now regionQuery cacheKey

/-- Fixture: a minimal cached response. -/
def wResponseData : ResponseData :=
  { region := "Paris"
    coordinates := (.fin 1, .fin 2)
    geoJson := []
    emotionsSummary := ⟨0, 0, 0, 0, 0, 0⟩
    topPosts := []
    posts := [] }

/-- Fixture: a cache entry created at t = 1000. -/
def wCacheEntry : CacheEntry := ⟨1000, wResponseData⟩

/-- Fixture: a cache holding the entry under the key for "Paris". -/
def wCache : Cache := [("region:paris", wCacheEntry)]

/-- Fixture: a route environment whose upstreams all answer trivially. -/
def wRouteEnv : RouteEnv :=
  { classify := wEnv
    spreadO := wSpread
    geocode := fun _ => .error "Failed to geocode region"
    fetchNews := fun _ _ _ => .ok []
    fetchGdelt := fun _ => .ok []
    iso := fun _ => "1970-01-01T00:00:00.000Z" }

-- =====================
-- THEOREMS
-- =====================

/-- C4: for every input text that is null, blank, or has fewer than 3
characters after trimming, `classifyEmotion` returns exactly
`{emotion: neutral, confidence: 1.0}` deterministically, and issues no
call to the external model (empty effect log). -/
theorem classifyEmotion_short_input (env : ClassifyEnv) (t : Option String)
    (h : t = none ∨ ∃ s, t = some s ∧ (jsTrim s).length < 3) :
    classifyEmotion env t = (⟨Emotion.neutral, 1⟩, []) := by
  rcases h with h | ⟨s, rfl, hs⟩
  · subst h; rfl
  · simp [classifyEmotion, if_pos (Or.inr hs)]

/-- Witness for C4 at the concrete input `"hi"` (2 trimmed characters). -/
theorem classifyEmotion_short_input_witness :
    classifyEmotion ⟨some "key", fun _ => none⟩ (some "hi") =
      (⟨Emotion.neutral, 1⟩, []) :=
  classifyEmotion_short_input _ _ (Or.inr ⟨"hi", rfl, by decide⟩)

/-- C2: for every list of N input texts, `classifyEmotionsBatch` returns
exactly N results, and the result at index i is the classification of the
input text at index i (the embedding of `Promise.all` joins results
positionally, independent of completion order). -/
theorem classifyEmotionsBatch_order (env : ClassifyEnv) (texts : List String) :
    (classifyEmotionsBatch env texts).1.length = texts.length ∧
    ∀ i : ℕ, ((classifyEmotionsBatch env texts).1)[i]? =
      (texts[i]?).map (fun t => (classifyEmotion env (some t)).1) := by
  refine ⟨by simp [classifyEmotionsBatch], fun i => ?_⟩
  simp [classifyEmotionsBatch]

theorem finalValidate_some_not_nan (o : Option (JsNum × JsNum))
    (c : JsNum × JsNum) (h : finalValidate o = some c) :
    jsIsNaN c.1 = false ∧ jsIsNaN c.2 = false := by
  rcases o with _ | c'
  · simp [finalValidate] at h
  · simp only [finalValidate] at h
    split_ifs at h with hif
    simp only [Bool.or_eq_true, not_or, Bool.not_eq_true] at hif
    cases Option.some.inj h
    exact hif

theorem postCoords_some_not_nan (spreadO : ℕ → JsNum × JsNum → JsNum × JsNum)
    (center : JsNum × JsNum) (i : ℕ) (p : UnifiedPost) (c : JsNum × JsNum)
    (h : postCoords spreadO center i p = some c) :
    jsIsNaN c.1 = false ∧ jsIsNaN c.2 = false := by
  simp only [postCoords] at h
  exact finalValidate_some_not_nan _ _ h

theorem postCoords_genuine (spreadO : ℕ → JsNum × JsNum → JsNum × JsNum)
    (center : JsNum × JsNum) (i : ℕ) (p : UnifiedPost) (a b : ℚ)
    (hla : p.lat = some (.fin a)) (hlo : p.lon = some (.fin b)) :
    postCoords spreadO center i p = some (.fin b, .fin a) := by
  simp [postCoords, hla, hlo, jsIsNaN, finalValidate]

/-- C1 counterexample: the claim "every feature emitted by formatMapData has
finite, non-NaN coordinates" is false: a post with `lat = Infinity`,
`lon = 0` passes the code's NaN-only checks and is emitted with an
infinite coordinate. -/
theorem formatMapData_emits_nonfinite :
    ¬ (∀ f ∈ (formatMapData wEnv wSpread [wPostInfLat] (.fin 0, .fin 0)).1,
        jsIsFinite f.coordinates.1 = true ∧ jsIsFinite f.coordinates.2 = true) := by
  decide

/-- C1 amended: every feature emitted by `formatMapData` has non-NaN
coordinates (the code validates against NaN only, so infinities pass
through); a post whose coordinates cannot be assigned without NaN is
dropped (at most one feature per post); and for every post whose lat and
lon are both non-null and finite, a feature is emitted whose geometry
coordinates are exactly `[lon, lat]`. -/
theorem formatMapData_coords (env : ClassifyEnv)
    (spreadO : ℕ → JsNum × JsNum → JsNum × JsNum)
    (posts : List UnifiedPost) (center : JsNum × JsNum) :
    (∀ f ∈ (formatMapData env spreadO posts center).1,
        jsIsNaN f.coordinates.1 = false ∧ jsIsNaN f.coordinates.2 = false) ∧
    (formatMapData env spreadO posts center).1.length ≤ posts.length ∧
    (∀ p ∈ posts, ∀ a b : ℚ, p.lat = some (.fin a) → p.lon = some (.fin b) →
        ∃ f ∈ (formatMapData env spreadO posts center).1,
          f.coordinates = (.fin b, .fin a) ∧ f.text = p.text) := by
  unfold formatMapData
  generalize 0 = i
  induction posts generalizing i with
  | nil => simp [formatMapDataGo]
  | cons p rest ih =>
    obtain ⟨ih1, ih2, ih3⟩ := ih (i + 1)
    refine ⟨?_, ?_, ?_⟩ <;> simp only [formatMapDataGo]
    · intro f hf
      rcases hc : postCoords spreadO center i p with _ | c <;>
        simp only [hc] at hf
      · exact ih1 f hf
      · rcases List.mem_cons.mp hf with hf | hf
        · subst hf
          exact postCoords_some_not_nan spreadO center i p c hc
        · exact ih1 f hf
    · rcases hc : postCoords spreadO center i p with _ | c <;> simp only [hc]
      · exact Nat.le_succ_of_le ih2
      · simpa using ih2
    · intro q hq a b hla hlo
      rcases List.mem_cons.mp hq with hq | hq
      · subst hq
        have hc := postCoords_genuine spreadO center i q a b hla hlo
        rw [hc]
        exact ⟨_, List.mem_cons_self _ _, rfl, rfl⟩
      · obtain ⟨f, hfmem, hfc⟩ := ih3 q hq a b hla hlo
        rcases hc : postCoords spreadO center i p with _ | c <;> simp only [hc]
        · exact ⟨f, hfmem, hfc⟩
        · exact ⟨f, List.mem_cons_of_mem _ hfmem, hfc⟩

theorem spread_bound_aux (c : ℝ × ℝ) (s u v : ℝ)
    (_hv0 : 0 ≤ v) (hv1 : v ≤ 1) (hs : 0 ≤ s) :
    approxDistKm c (spreadAroundRegion c s u v) ≤ s := by
  have h1111 : (1.111 : ℝ) = 1111 / 1000 := by norm_num
  set θ := u * 2 * Real.pi with hθ
  set k := Real.cos (c.1 * Real.pi / 180) with hk
  set d := Real.sqrt v * (s / 100) with hd
  have hd0 : 0 ≤ d := mul_nonneg (Real.sqrt_nonneg v) (div_nonneg hs (by norm_num))
  have h1 : (spreadAroundRegion c s u v).1 - c.1 = Real.cos θ * d / 1.111 := by
    simp only [spreadAroundRegion, ← hθ, ← hd]
    ring
  have h2 : (spreadAroundRegion c s u v).2 - c.2 =
      Real.sin θ * d / (1.111 * k) := by
    simp only [spreadAroundRegion, ← hθ, ← hd, ← hk]
    ring
  unfold approxDistKm
  rw [h1, h2]
  have hB : (Real.sin θ * d / (1.111 * k) * k) ^ 2 ≤
      (Real.sin θ * d / 1.111) ^ 2 := by
    by_cases hzk : k = 0
    · rw [hzk]
      simp [mul_zero]
      positivity
    · have : Real.sin θ * d / (1.111 * k) * k = Real.sin θ * d / 1.111 := by
        field_simp
        ring
      rw [this]
  have hsum : (Real.cos θ * d / 1.111) ^ 2 +
      (Real.sin θ * d / (1.111 * k) * k) ^ 2 ≤ (d / 1.111) ^ 2 := by
    have hpy : Real.sin θ ^ 2 + Real.cos θ ^ 2 = 1 := Real.sin_sq_add_cos_sq θ
    have hexp : (Real.cos θ * d / 1.111) ^ 2 + (Real.sin θ * d / 1.111) ^ 2 =
        (Real.sin θ ^ 2 + Real.cos θ ^ 2) * (d / 1.111) ^ 2 := by ring
    have : (Real.cos θ * d / 1.111) ^ 2 + (Real.sin θ * d / 1.111) ^ 2 =
        (d / 1.111) ^ 2 := by rw [hexp, hpy, one_mul]
    linarith
  have hsqrt : Real.sqrt ((Real.cos θ * d / 1.111) ^ 2 +
      (Real.sin θ * d / (1.111 * k) * k) ^ 2) ≤ d / 1.111 := by
    have hdd : (0 : ℝ) ≤ d / 1.111 := by positivity
    calc Real.sqrt ((Real.cos θ * d / 1.111) ^ 2 +
            (Real.sin θ * d / (1.111 * k) * k) ^ 2)
        ≤ Real.sqrt ((d / 1.111) ^ 2) := Real.sqrt_le_sqrt hsum
      _ = d / 1.111 := Real.sqrt_sq hdd
  have hfinal : 111 * (d / 1.111) ≤ s := by
    have hsv : Real.sqrt v ≤ 1 := by
      rw [show (1 : ℝ) = Real.sqrt 1 by rw [Real.sqrt_one]]
      exact Real.sqrt_le_sqrt hv1
    have hsv0 : 0 ≤ Real.sqrt v := Real.sqrt_nonneg v
    have hx : Real.sqrt v * s ≤ s := by nlinarith
    have hx0 : 0 ≤ Real.sqrt v * s := mul_nonneg hsv0 hs
    have heq : 111 * (d / 1.111) = (Real.sqrt v * s) * (1110 / 1111) := by
      rw [hd, h1111]; ring
    rw [heq]
    nlinarith
  calc 111 * Real.sqrt ((Real.cos θ * d / 1.111) ^ 2 +
          (Real.sin θ * d / (1.111 * k) * k) ^ 2)
      ≤ 111 * (d / 1.111) := by nlinarith [hsqrt]
    _ ≤ s := hfinal

theorem spread_eval_zero :
    spreadAroundRegion (0, 0) 5 0 0 = (0, 0) := by
  simp [spreadAroundRegion]

theorem spread_eval_quarter :
    spreadAroundRegion (0, 0) 5 0 (1 / 4) = (25 / 1111, 0) := by
  have h4 : Real.sqrt 4 = 2 := by
    rw [show (4 : ℝ) = 2 ^ 2 by norm_num,
      Real.sqrt_sq (by norm_num : (0 : ℝ) ≤ 2)]
  simp [spreadAroundRegion, h4]
  norm_num

/-- C9: for every center and every pair of random draws in [0,1), the point
synthesized by `spreadAroundRegion` lies within the configured spread
radius of the center under the standard equirectangular great-circle
approximation; and the two distinct draw pairs (0,0) and (0,1/4) at the
default radius 5 produce distinct points, both within the radius. -/
theorem spreadAroundRegion_radius_and_nondegenerate :
    (∀ (c : ℝ × ℝ) (s u v : ℝ), 0 ≤ u → u < 1 → 0 ≤ v → v < 1 → 0 ≤ s →
        approxDistKm c (spreadAroundRegion c s u v) ≤ s) ∧
    spreadAroundRegion (0, 0) 5 0 0 ≠ spreadAroundRegion (0, 0) 5 0 (1 / 4) ∧
    approxDistKm (0, 0) (spreadAroundRegion (0, 0) 5 0 0) ≤ 5 ∧
    approxDistKm (0, 0) (spreadAroundRegion (0, 0) 5 0 (1 / 4)) ≤ 5 := by
  refine ⟨fun c s u v _ _ hv0 hv1 hs =>
      spread_bound_aux c s u v hv0 (le_of_lt hv1) hs, ?_, ?_, ?_⟩
  · rw [spread_eval_zero, spread_eval_quarter]
    intro h
    have := congrArg Prod.fst h
    norm_num at this
  · exact spread_bound_aux _ _ _ _ le_rfl (by norm_num) (by norm_num)
  · exact spread_bound_aux _ _ _ _ (by norm_num) (by norm_num) (by norm_num)

/-- Witness for C9 at center (10, 20), radius 5, draws (1/2, 1/2). -/
theorem spreadAroundRegion_radius_witness :
    approxDistKm (10, 20) (spreadAroundRegion (10, 20) 5 (1 / 2) (1 / 2)) ≤ 5 :=
  spreadAroundRegion_radius_and_nondegenerate.1 (10, 20) 5 (1 / 2) (1 / 2)
    (by norm_num) (by norm_num) (by norm_num) (by norm_num) (by norm_num)

theorem find?_of_getElem? {α : Type} (p : α → Bool) (l : List α) (i : ℕ)
    (kv : α) (hget : l[i]? = some kv) (hp : p kv = true)
    (hbefore : ∀ x ∈ l.take i, p x = false) :
    l.find? p = some kv := by
  induction l generalizing i with
  | nil => simp at hget
  | cons a t ih =>
    cases i with
    | zero =>
      simp only [List.getElem?_cons_zero, Option.some.injEq] at hget
      subst hget
      simp [List.find?_cons_of_pos _ hp]
    | succ n =>
      rw [List.getElem?_cons_succ] at hget
      have ha : p a = false := hbefore a (by simp [List.take_succ_cons])
      rw [List.find?_cons_of_neg _ (by simp [ha])]
      exact ih n hget fun x hx =>
        hbefore x (by simp only [List.take_succ_cons, List.mem_cons]; exact Or.inr hx)

/-- C8 counterexample: the static country-code lookup is NOT a
longest-key match.  `"london usa"` contains both the key `"london"`
(6 characters, mapped to `"gb"`) and the shorter key `"usa"` (mapped to
`"us"`); the code returns `"us"` because `"usa"` comes first in the
table's insertion order. -/
theorem extractCountryFromRegion_not_longest :
    extractCountryFromRegion "london usa" = "us" ∧
    jsIncludes (jsToLower "london usa") "london" = true ∧
    countryCodeMap.find? (fun kv => kv.1 == "london") =
      some ("london", "gb") ∧
    "usa".length < "london".length := by
  refine ⟨?_, by decide, by decide, by decide⟩
  decide

/-- C8 amended: the static lookup scans `countryCodeMap` in insertion
order and returns the code of the FIRST key (not the longest) that is a
case-insensitive substring of the region; if no key is contained it falls
back to an exact lowercase-trimmed lookup, and to `"us"` when that also
finds nothing. -/
theorem extractCountryFromRegion_spec (region : String) :
    (∀ i : ℕ, ∀ kv : String × String, countryCodeMap[i]? = some kv →
        countryKeyMatches region kv = true →
        (∀ kv' ∈ countryCodeMap.take i, countryKeyMatches region kv' = false) →
        extractCountryFromRegion region = kv.2) ∧
    ((∀ kv ∈ countryCodeMap, countryKeyMatches region kv = false) →
        extractCountryFromRegion region = getCountryCode region) ∧
    (countryCodeMap.find? (fun kv => kv.1 == jsTrim (jsToLower region)) = none →
        getCountryCode region = "us") := by
  refine ⟨?_, ?_, ?_⟩
  · intro i kv hget hp hbefore
    unfold extractCountryFromRegion
    rw [find?_of_getElem? _ _ i kv hget hp hbefore]
  · intro hall
    unfold extractCountryFromRegion
    rw [List.find?_eq_none.mpr fun x hx => by simp [hall x hx]]
  · intro hnone
    simp only [getCountryCode, hnone]

/-- Witness for the amended C8: `"london usa"` hits the entry `"usa"` at
index 1 (index 0, `"united states"`, does not match), giving `"us"`. -/
theorem extractCountryFromRegion_spec_witness :
    extractCountryFromRegion "london usa" = ("usa", "us").2 :=
  (extractCountryFromRegion_spec "london usa").1 1 ("usa", "us")
    (by decide) (by decide) (by decide)

theorem rat_lt_half_iff (n m : ℕ) :
    ((n : ℚ) < (m : ℚ) / 2) ↔ 2 * n < m := by
  rw [lt_div_iff₀ (by norm_num : (0 : ℚ) < 2)]
  constructor
  · intro h
    have : ((2 * n : ℕ) : ℚ) < ((m : ℕ) : ℚ) := by push_cast; linarith
    exact_mod_cast this
  · intro h
    have : ((2 * n : ℕ) : ℚ) < ((m : ℕ) : ℚ) := by exact_mod_cast h
    push_cast at this
    linarith

/-- C5 counterexample: the secondary GDELT filter is not the claimed
"exact match or text/source-country contains the name or an alias": an
article with an EMPTY source-country field and a text that never mentions
"france" is kept (every alias contains the empty string), and it survives
the whole post-fetch pipeline. -/
theorem gdeltKeep_not_claim :
    gdeltKeep "france" wGdeltEvent = true ∧
    gdeltKeepClaim "france" wGdeltEvent = false ∧
    fetchGdeltEventsFilter [wGdeltEvent] (some "france") 2 = [wGdeltEvent] := by
  refine ⟨by decide, by decide, ?_⟩
  simp only [fetchGdeltEventsFilter]
  split_ifs <;> decide

/-- C5 amended: an article is kept iff its source-country exactly equals
the requested country (case-insensitive), or its text contains the
requested name or the name's first word, or some known alias/variant is
contained in the source-country, CONTAINS the source-country (reverse
containment — so an empty source-country always matches), or appears in
the text; and when the filtered list has fewer than half of the requested
limit (and the fetch returned anything), the filter is abandoned and the
unfiltered list is returned instead, truncated to the limit. -/
theorem fetchGdeltEvents_filter_spec (cn : String)
    (events : List GdeltEvent) (limit : ℕ) :
    (∀ e : GdeltEvent, gdeltKeep cn e = gdeltKeepAmended cn e) ∧
    (limit ≤ 2 * (events.filter (gdeltKeep cn)).length →
      fetchGdeltEventsFilter events (some cn) limit =
        (events.filter (gdeltKeep cn)).take limit) ∧
    (events ≠ [] → 2 * (events.filter (gdeltKeep cn)).length < limit →
      fetchGdeltEventsFilter events (some cn) limit = events.take limit) ∧
    fetchGdeltEventsFilter events none limit = events.take limit := by
  refine ⟨?_, ?_, ?_, ?_⟩
  · intro e
    unfold gdeltKeep gdeltKeepAmended
    by_cases h : (jsToLower e.region == jsToLower cn) = true <;>
      simp [h, Bool.or_assoc]
  · intro h
    simp only [fetchGdeltEventsFilter]
    rw [if_neg fun hcon =>
      absurd ((rat_lt_half_iff _ _).mp hcon.1) (by omega)]
  · intro hne hlt
    simp only [fetchGdeltEventsFilter]
    rw [if_pos ⟨(rat_lt_half_iff _ _).mpr hlt, List.length_pos.mpr hne⟩]
  · rfl

/-- Witness for the amended C5: one article, limit 3 — the filtered list
(1 article) is below half the limit, so the unfiltered list is returned. -/
theorem fetchGdeltEvents_filter_spec_witness :
    fetchGdeltEventsFilter [wGdeltEvent] (some "france") 3 =
      [wGdeltEvent].take 3 :=
  (fetchGdeltEvents_filter_spec "france" [wGdeltEvent] 3).2.2.1
    (by decide) (by decide)

/-- C7 counterexample: a request in which the sample-posts input
(`topTweets`) is missing entirely is NOT rejected: with the other three
inputs valid, the handler proceeds, calls the LLM backend, and returns
200 with the model's answer. -/
theorem chatPOST_missing_topTweets_not_rejected :
    chatPOST ⟨some "key", .content "answer"⟩
      ⟨.jstr "what is happening", .jobj, .jundef, .jstr "new york"⟩ =
      (.ok "answer", [.llmCall]) := by
  decide

/-- C7 amended: the handler validates question, emotionsSummary and
region — each failure is a terminal 400 naming the field, issued before
any LLM call; `topTweets` is NOT validated (a missing or non-array value
silently defaults to an empty list), and once the three validated inputs
pass (with the API key configured) the LLM backend is called exactly
once regardless of `topTweets`. -/
theorem chatPOST_validation (env : ChatEnv) (body : ChatBody) (k : String) :
    (chatQuestionInvalid body.question = true →
      chatPOST env body =
        (.err 400 "Chat processing failed" "Missing or invalid question", [])) ∧
    (chatQuestionInvalid body.question = false → env.apiKey = some k →
      chatSummaryInvalid body.emotionsSummary = true →
      chatPOST env body =
        (.err 400 "Chat processing failed" "Missing or invalid emotionsSummary",
         [])) ∧
    (chatQuestionInvalid body.question = false → env.apiKey = some k →
      chatSummaryInvalid body.emotionsSummary = false →
      chatRegionInvalid body.region = true →
      chatPOST env body =
        (.err 400 "Chat processing failed" "Missing or invalid region", [])) ∧
    (chatQuestionInvalid body.question = false → env.apiKey = some k →
      chatSummaryInvalid body.emotionsSummary = false →
      chatRegionInvalid body.region = false →
      (chatPOST env body).2 = [Effect.llmCall]) := by
  refine ⟨?_, ?_, ?_, ?_⟩
  · intro hq
    simp [chatPOST, hq]
  · intro hq hk hs
    simp [chatPOST, hq, hk, hs]
  · intro hq hk hs hr
    simp [chatPOST, hq, hk, hs, hr]
  · intro hq hk hs hr
    cases hl : env.llm <;> simp [chatPOST, hq, hk, hs, hr, hl] <;> split_ifs <;> rfl

/-- Witness for the amended C7: a `null` question is rejected with a 400
naming the question, with no LLM call. -/
theorem chatPOST_validation_witness :
    chatPOST ⟨some "key", .content "hi"⟩ ⟨.jnull, .jobj, .jarr [], .jstr "ny"⟩ =
      (.err 400 "Chat processing failed" "Missing or invalid question", []) :=
  (chatPOST_validation ⟨some "key", .content "hi"⟩
    ⟨.jnull, .jobj, .jarr [], .jstr "ny"⟩ "key").1 (by decide)

namespace PostBuffer

theorem cleanup_fresh (now : ℤ) (l : List BufferedPost) :
    ∀ q ∈ cleanup now l, now - q.timestamp < maxAge := by
  intro q hq
  have := (List.mem_filter.mp hq).2
  simpa using this

theorem addPost_length (now : ℤ) (p : BlueskyPost) (buf : List BufferedPost) :
    (addPost now p buf).length ≤ maxSize := by
  simp only [addPost]
  set posts2 := (buf.filter fun q => q.post.cid ≠ p.cid) ++ [⟨p, now⟩] with h2
  by_cases hlen : posts2.length > maxSize
  · rw [if_pos hlen]
    calc (cleanup now (takeRight maxSize posts2)).length
        ≤ (takeRight maxSize posts2).length := List.length_filter_le _ _
      _ ≤ maxSize := by simp [takeRight]; omega
  · rw [if_neg hlen]
    calc (cleanup now posts2).length ≤ posts2.length := List.length_filter_le _ _
      _ ≤ maxSize := by omega

theorem addPost_nodup (now : ℤ) (p : BlueskyPost) (buf : List BufferedPost)
    (h : (buf.map fun q => q.post.cid).Nodup) :
    ((addPost now p buf).map fun q => q.post.cid).Nodup := by
  simp only [addPost]
  have h1 : ((buf.filter fun q => q.post.cid ≠ p.cid).map
      fun q => q.post.cid).Nodup :=
    h.sublist ((List.filter_sublist _).map _)
  have hnotin : p.cid ∉ (buf.filter fun q => q.post.cid ≠ p.cid).map
      fun q => q.post.cid := by
    intro hmem
    obtain ⟨q, hq, hcid⟩ := List.mem_map.mp hmem
    have := (List.mem_filter.mp hq).2
    simp at this
    exact this hcid
  have h2 : ((((buf.filter fun q => q.post.cid ≠ p.cid) ++
      [(⟨p, now⟩ : BufferedPost)]).map fun q => q.post.cid)).Nodup := by
    rw [List.map_append]
    rw [List.nodup_append]
    refine ⟨h1, List.nodup_singleton _, ?_⟩
    intro x hx
    simp only [List.map_cons, List.map_nil, List.mem_singleton]
    intro hxeq
    subst hxeq
    exact hnotin hx
  have h3 : ∀ l' : List BufferedPost,
      List.Sublist l' ((buf.filter fun q => q.post.cid ≠ p.cid) ++
        [(⟨p, now⟩ : BufferedPost)]) →
      (l'.map fun q => q.post.cid).Nodup :=
    fun l' hs => h2.sublist (hs.map _)
  split_ifs with hc
  · exact h3 _ ((List.filter_sublist _).trans (List.drop_sublist _ _))
  · exact h3 _ (List.filter_sublist _)

theorem addPost_fresh (now : ℤ) (p : BlueskyPost) (buf : List BufferedPost) :
    ∀ q ∈ addPost now p buf, now - q.timestamp < maxAge := by
  simp only [addPost]
  split_ifs <;> exact cleanup_fresh now _

theorem foldl_length (adds : List (BlueskyPost × ℤ)) :
    ∀ st : List BufferedPost, adds ≠ [] →
      ((adds.foldl (fun st a => addPost a.2 a.1 st) st).length ≤ maxSize) := by
  induction adds with
  | nil => intro st h; exact absurd rfl h
  | cons a rest ih =>
    intro st _
    rcases rest with _ | ⟨b, t⟩
    · simpa using addPost_length a.2 a.1 st
    · simp only [List.foldl_cons]
      exact ih (addPost a.2 a.1 st) (by simp)

theorem foldl_nodup (adds : List (BlueskyPost × ℤ)) :
    ∀ st : List BufferedPost, (st.map fun q => q.post.cid).Nodup →
      ((adds.foldl (fun st a => addPost a.2 a.1 st) st).map
        fun q => q.post.cid).Nodup := by
  induction adds with
  | nil => intro st h; simpa using h
  | cons a rest ih =>
    intro st h
    simp only [List.foldl_cons]
    exact ih _ (addPost_nodup a.2 a.1 st h)

theorem foldl_fresh (adds : List (BlueskyPost × ℤ)) :
    ∀ (st : List BufferedPost) (lastAdd : BlueskyPost × ℤ),
      adds.getLast? = some lastAdd →
      ∀ q ∈ adds.foldl (fun st a => addPost a.2 a.1 st) st,
        lastAdd.2 - q.timestamp < maxAge := by
  induction adds with
  | nil => intro st lastAdd hlast; simp at hlast
  | cons a rest ih =>
    intro st lastAdd hlast q hq
    cases hrest : rest with
    | nil =>
      subst hrest
      simp only [List.getLast?_singleton, Option.some.injEq] at hlast
      subst hlast
      simp only [List.foldl_cons, List.foldl_nil] at hq
      exact addPost_fresh a.2 a.1 st q hq
    | cons b t =>
      subst hrest
      rw [List.getLast?_cons_cons] at hlast
      simp only [List.foldl_cons] at hq
      exact ih _ lastAdd hlast q hq

end PostBuffer

/-- C10: after every non-empty sequence of `addPost` calls on the firehose
`PostBuffer` starting empty, the buffer holds at most 1000 posts, no two
buffered posts share a CID (re-adding a CID replaces the earlier copy),
and every buffered post was added less than one hour before the last add;
moreover every post still buffered after a `getPosts` read is less than
one hour old at the read's clock (stale entries are purged on each add and
on each read). -/
theorem postBuffer_invariants (adds : List (BlueskyPost × ℤ))
    (lastAdd : BlueskyPost × ℤ) (hlast : adds.getLast? = some lastAdd) :
    (PostBuffer.runAdds adds).length ≤ PostBuffer.maxSize ∧
    ((PostBuffer.runAdds adds).map fun q => q.post.cid).Nodup ∧
    (∀ q ∈ PostBuffer.runAdds adds,
      lastAdd.2 - q.timestamp < PostBuffer.maxAge) ∧
    (∀ (now : ℤ) (query : Option String) (limit : ℕ),
      ∀ q ∈ (PostBuffer.getPosts now query limit (PostBuffer.runAdds adds)).2,
        now - q.timestamp < PostBuffer.maxAge) := by
  have hne : adds ≠ [] := by
    intro h; subst h; simp at hlast
  refine ⟨PostBuffer.foldl_length adds [] hne,
    PostBuffer.foldl_nodup adds [] (by simp),
    PostBuffer.foldl_fresh adds [] lastAdd hlast, ?_⟩
  intro now query limit q hq
  exact PostBuffer.cleanup_fresh now _ q hq

/-- Witness for C10 at a single concrete add. -/
theorem postBuffer_invariants_witness :
    (PostBuffer.runAdds [(⟨"hi", "bluesky", "2025", "u1", "c1"⟩, 100)]).length ≤
      PostBuffer.maxSize :=
  (postBuffer_invariants [(⟨"hi", "bluesky", "2025", "u1", "c1"⟩, 100)]
    (⟨"hi", "bluesky", "2025", "u1", "c1"⟩, 100) (by decide)).1

theorem find?_filter_ne_key (c : List (String × CacheEntry)) (k k' : String)
    (h : k' ≠ k) :
    (c.filter fun kv => kv.1 ≠ k).find? (fun kv => kv.1 == k') =
      c.find? fun kv => kv.1 == k' := by
  induction c with
  | nil => rfl
  | cons a t ih =>
    rw [List.filter_cons]
    by_cases ha : a.1 = k
    · rw [if_neg (by simp [ha])]
      have hne : (a.1 == k') = false := by
        rw [ha]; simp; exact Ne.symm h
      simp only [List.find?_cons, hne]
      exact ih
    · rw [if_pos (by simp [ha])]
      by_cases ha' : (a.1 == k') = true
      · simp only [List.find?_cons, ha']
      · have ha'' : (a.1 == k') = false := by simpa using ha'
        simp only [List.find?_cons, ha'']
        exact ih

theorem find?_filter_self_key (c : List (String × CacheEntry)) (k : String) :
    (c.filter fun kv => kv.1 ≠ k).find? (fun kv => kv.1 == k) = none := by
  rw [List.find?_eq_none]
  intro x hx
  have hpred := (List.mem_filter.mp hx).2
  simp at hpred ⊢
  exact hpred

theorem cacheFind_delete_self (c : Cache) (k : String) :
    cacheFind (cacheDelete c k) k = none := by
  unfold cacheFind cacheDelete
  rw [find?_filter_self_key]
  rfl

theorem cacheFind_delete_ne (c : Cache) (k k' : String) (h : k' ≠ k) :
    cacheFind (cacheDelete c k) k' = cacheFind c k' := by
  unfold cacheFind cacheDelete
  rw [find?_filter_ne_key c k k' h]

theorem cacheFind_insert_ne (c : Cache) (k : String) (v : CacheEntry)
    (k' : String) (h : k' ≠ k) :
    cacheFind (cacheInsert c k v) k' = cacheFind c k' := by
  unfold cacheFind cacheInsert
  rw [List.find?_append]
  have h2 : List.find? (fun kv => kv.1 == k') [(k, v)] = none := by
    have hf : ((k, v).1 == k') = false := by simp; exact Ne.symm h
    simp only [List.find?_cons, hf, List.find?_nil]
  rw [h2, Option.or_none, find?_filter_ne_key c k k' h]

theorem cacheFind_insert_self (c : Cache) (k : String) (v : CacheEntry) :
    cacheFind (cacheInsert c k v) k = some v := by
  unfold cacheFind cacheInsert
  rw [List.find?_append, find?_filter_self_key, Option.none_or]
  simp only [List.find?_cons, beq_self_eq_true]
  rfl

theorem tweetsPipelineCore_entry (env : RouteEnv) (now : ℤ)
    (rq rn : String) (rc : JsNum × JsNum) (eff0 : List Effect)
    (e : CacheEntry)
    (h : (tweetsPipelineCore env now rq rn rc eff0).2.1 = some e) :
    ∃ d : ResponseData, e = ⟨now, d⟩ := by
  simp only [tweetsPipelineCore] at h
  split_ifs at h <;>
    first
      | exact ⟨_, (Option.some.inj h).symm⟩
      | exact ⟨_, h.symm⟩
      | simp at h

theorem tweetsStaged_entry (env : RouteEnv) (now : ℤ) (rq : String)
    (e : CacheEntry) (h : (tweetsStaged env now rq).2.1 = some e) :
    ∃ d : ResponseData, e = ⟨now, d⟩ := by
  simp only [tweetsStaged] at h
  split_ifs at h
  · cases hg : env.geocode rq with
    | error details => rw [hg] at h; simp at h
    | ok rc =>
      rw [hg] at h
      exact tweetsPipelineCore_entry _ _ _ _ _ _ _ h
  · exact tweetsPipelineCore_entry _ _ _ _ _ _ _ h

theorem tweetsPipeline_cacheFind_ne (env : RouteEnv) (c : Cache) (now : ℤ)
    (rq key k : String) (h : k ≠ key) :
    cacheFind (tweetsPipeline env c now rq key).2.1 k = cacheFind c k := by
  unfold tweetsPipeline
  rcases hs : tweetsStaged env now rq with ⟨r, _ | e, eff⟩
  · simp [applyStore]
  · simp [applyStore, cacheFind_insert_ne c key e k h]

theorem tweetsPipeline_cacheFind_self (env : RouteEnv) (c : Cache)
    (now : ℤ) (rq key : String) :
    cacheFind (tweetsPipeline env c now rq key).2.1 key = cacheFind c key ∨
    ∃ d : ResponseData,
      cacheFind (tweetsPipeline env c now rq key).2.1 key =
        some ⟨now, d⟩ := by
  unfold tweetsPipeline
  rcases hs : tweetsStaged env now rq with ⟨r, _ | e, eff⟩
  · left; simp [applyStore]
  · right
    obtain ⟨d, rfl⟩ := tweetsStaged_entry env now rq e (by rw [hs])
    exact ⟨d, by simp [applyStore, cacheFind_insert_self]⟩

/-- C3: a cache lookup by the lowercase-trimmed region key that finds an
entry younger than 30 seconds returns the cached response data verbatim,
leaves the cache untouched and makes no upstream call (no geocode, no
source fetch, no classification); a lookup that finds an entry at least
30 seconds old behaves exactly as the same request on the cache with the
entry deleted (the stale entry is removed and the full pipeline runs,
re-caching under the same key with the current timestamp); and a request
never touches entries under other keys — expiry happens only at access
time, there is no background sweeper. -/
theorem tweetsPOST_cache_behaviour (env : RouteEnv) (cache : Cache)
    (now : ℤ) (bodyRegion : JVal) :
    (∀ entry : CacheEntry,
      cacheFind cache (tweetsCacheKey bodyRegion) = some entry →
      now - entry.timestamp < 30000 →
      tweetsPOST env cache now bodyRegion = (.ok entry.data, cache, [])) ∧
    (∀ entry : CacheEntry,
      cacheFind cache (tweetsCacheKey bodyRegion) = some entry →
      30000 ≤ now - entry.timestamp →
      tweetsPOST env cache now bodyRegion =
        tweetsPOST env (cacheDelete cache (tweetsCacheKey bodyRegion)) now
          bodyRegion) ∧
    (∀ entry : CacheEntry,
      cacheFind cache (tweetsCacheKey bodyRegion) = some entry →
      30000 ≤ now - entry.timestamp →
      cacheFind (tweetsPOST env cache now bodyRegion).2.1
          (tweetsCacheKey bodyRegion) = none ∨
      ∃ d : ResponseData,
        cacheFind (tweetsPOST env cache now bodyRegion).2.1
          (tweetsCacheKey bodyRegion) = some ⟨now, d⟩) ∧
    (∀ k : String, k ≠ tweetsCacheKey bodyRegion →
      cacheFind (tweetsPOST env cache now bodyRegion).2.1 k =
        cacheFind cache k) := by
  refine ⟨?_, ?_, ?_, ?_⟩
  · intro entry hfind hfresh
    simp only [tweetsPOST, hfind, if_pos hfresh]
  · intro entry hfind hstale
    simp only [tweetsPOST, hfind, cacheFind_delete_self,
      if_neg (by omega : ¬(now - entry.timestamp < 30000))]
  · intro entry hfind hstale
    simp only [tweetsPOST, hfind,
      if_neg (by omega : ¬(now - entry.timestamp < 30000))]
    rcases tweetsPipeline_cacheFind_self env
        (cacheDelete cache (tweetsCacheKey bodyRegion)) now
        (tweetsRegionQuery bodyRegion) (tweetsCacheKey bodyRegion) with
      h | ⟨d, hd⟩
    · left; rw [h, cacheFind_delete_self]
    · right; exact ⟨d, hd⟩
  · intro k hk
    simp only [tweetsPOST]
    cases hfind : cacheFind cache (tweetsCacheKey bodyRegion) with
    | none => exact tweetsPipeline_cacheFind_ne env cache now _ _ k hk
    | some entry =>
      by_cases hfresh : now - entry.timestamp < 30000
      · simp [hfresh]
      · simp only [if_neg hfresh]
        rw [tweetsPipeline_cacheFind_ne env _ now _ _ k hk]
        exact cacheFind_delete_ne cache _ k hk

/-- Witness for C3: a request for "Paris" at t = 1500 against a cache
entry created at t = 1000 (age 500 ms < 30 s) returns the cached data
verbatim, leaves the cache unchanged, and makes no upstream call. -/
theorem tweetsPOST_cache_behaviour_witness :
    tweetsPOST wRouteEnv wCache 1500 (.jstr "Paris") =
      (.ok wResponseData, wCache, []) :=
  (tweetsPOST_cache_behaviour wRouteEnv wCache 1500 (.jstr "Paris")).1
    wCacheEntry (by decide) (by decide)

/-- C6: for every post list and every region query whose extracted
main-region token has no curated keyword list and whose normalized form is
shorter than 3 characters, `filterByRegion` returns the empty list
unconditionally (fails closed). -/
theorem filterByRegion_fails_closed {α : Type} (textOf : α → String)
    (posts : List α) (region : String)
    (hkeys : regionKeysFor (extractMainRegion region) = [])
    (hlen : (normalize (extractMainRegion region)).length < 3) :
    filterByRegion textOf posts region = [] := by
  have h3 : ¬ (normalize (extractMainRegion region)).length ≥ 3 := by omega
  simp [filterByRegion, hkeys, h3]

/-- Witness for C6: the region `"xx"` (extracted token normalizes to the
empty string) filters a non-empty post list to the empty list. -/
theorem filterByRegion_fails_closed_witness :
    filterByRegion BlueskyPost.text
      [⟨"big news in new york", "bluesky", "2025-01-01", "u", "c"⟩]
      "xx" = [] :=
  filterByRegion_fails_closed _ _ _ (by decide) (by decide)

/-- Witness for the amended C1 at a concrete post with genuine finite
coordinates lat 1, lon 2: the emitted feature carries `[2, 1]`. -/
theorem formatMapData_coords_witness :
    ∃ f ∈ (formatMapData wEnv wSpread [wPostFin] (.fin 0, .fin 0)).1,
      f.coordinates = (.fin 2, .fin 1) ∧ f.text = "genuine" :=
  (formatMapData_coords wEnv wSpread [wPostFin] (.fin 0, .fin 0)).2.2 wPostFin
    (List.mem_singleton.mpr rfl) 1 2 rfl rfl

end PulseLens
